import Mathlib

/-!
# Verification of the nft-marketplace-backend account subsystem

Shallow embedding of the account repository / validator / username generator /
lockout tracker / migration engine of the repository, together with theorems
settling the specification claims.

Modelling conventions:
* The MongoDB/Mongoose store is modelled as an explicit `Store` value threaded
  through the operations; every operation that the JS code performs with
  `await` round-trips becomes a pure function from `Store` to a result and
  (where it writes) an updated `Store`.
* Machine timestamps (`Date.now()`, `lockUntil`) are `Nat` milliseconds.
* The structured (Mongoose) collection is a `List MUser`; the legacy
  single-document collection is `LegacyColl` distinguishing "no document",
  "document without a `users` field" and "document with a `users` list"
  (`usersDoc && usersDoc.users` in the JS).
* The Mongoose schema option `lowercase: true` on `email` is modelled as the
  setter being applied both when a document is saved and when an `email`
  query filter is cast (Mongoose 6 behaviour: setters run on query filters).
  The `trim: true` setters are not modelled: no claim involves surrounding
  whitespace.
* Fallible JS code (`throw`) becomes `Except`; an `Except.error` result means
  the store was not modified (the JS throws before any write on those paths).
-/

deriving instance DecidableEq for Except

/-- ASCII lowercasing, modelling JS `toLowerCase` / the Mongoose `lowercase`
setter on the ASCII strings this system handles. -/
def lowerStr (s : String) : String := String.mk (s.toList.map Char.toLower)

/-- Whitespace characters of the JS regex class `\s` (common ASCII subset). -/
def isJsSpace (c : Char) : Bool :=
  c == ' ' || c == '\t' || c == '\n' || c == '\r' || c == '\x0b' || c == '\x0c'

/-- A structured-store (Mongoose `User` model) document, fields from
`src/models/User.js`. `lockUntil` is optional exactly as in the schema. -/
structure MUser where
  username : String
  email : String
  password : String
  isActivated : Bool
  loginAttempts : Nat
  lockUntil : Option Nat
deriving DecidableEq

/-- A flat legacy account sub-record (old shape, no lockout fields).
Missing string fields are modelled as `""` (JS falsy). -/
structure LegacyUser where
  username : String
  email : String
  password : String
  isActivated : Bool
deriving DecidableEq

/-- The legacy single-document collection: either no document at all, a
document without a `users` field, or a document whose `users` field holds the
legacy list. The JS guard `usersDoc && usersDoc.users` distinguishes these. -/
inductive LegacyColl where
  | noDoc : LegacyColl
  | docNoUsers : LegacyColl
  | docUsers : List LegacyUser → LegacyColl
deriving DecidableEq

/-- The whole database state seen by the service. -/
structure Store where
  structured : List MUser
  legacy : LegacyColl
deriving DecidableEq

/-- The legacy list when `usersDoc && usersDoc.users` is truthy. An empty
`users: []` array is truthy in JS, hence `docUsers []` yields `some []`. -/
def Store.legacyUsers (s : Store) : Option (List LegacyUser) :=
  match s.legacy with
  | .docUsers l => some l
  | _ => none

/-- Data passed to `new User(...)`. -/
structure NewUserData where
  username : String
  email : String
  password : String
  isActivated : Bool
deriving DecidableEq

/-- The document produced by saving `NewUserData`: the schema's `lowercase`
setter stores the email lowercased; `loginAttempts` defaults to 0 and
`lockUntil` is absent. -/
def mkMUser (d : NewUserData) : MUser :=
  { username := d.username
    email := lowerStr d.email
    password := d.password
    isActivated := d.isActivated
    loginAttempts := 0
    lockUntil := none }

/-- The anchored Mongoose email validator regex
`/^[^\s@]+@[^\s@]+\.[^\s@]+$/` from `src/models/User.js`: exactly one `@`,
a non-empty non-space local part, and a domain part containing a `.` that is
neither its first nor its last character, all characters non-space. -/
def emailShapeValid (s : String) : Bool :=
  let cs := s.toList
  let a := cs.takeWhile (fun c => c != '@')
  match cs.dropWhile (fun c => c != '@') with
  | '@' :: b =>
      !a.isEmpty && a.all (fun c => !isJsSpace c) &&
      !b.isEmpty && !b.contains '@' && b.all (fun c => !isJsSpace c) &&
      ((b.drop 1).dropLast.contains '.')
  | _ => false

/-- Mongoose schema validation for a `User` document
(`src/models/User.js`): `username` required with length 3–30, `email`
required matching the schema regex, `password` required with length ≥ 4. -/
def validMUserData (d : NewUserData) : Bool :=
  d.username ≠ "" && 3 ≤ d.username.length && d.username.length ≤ 30 &&
  emailShapeValid d.email &&
  d.password ≠ "" && 4 ≤ d.password.length

/-- Errors a Mongoose `save()` can produce here: schema validation failure,
or the MongoDB duplicate-key error (code 11000) from the unique indexes on
`username` and `email`. -/
inductive MongooseErr where
  | validation : MongooseErr
  | duplicateKey : MongooseErr
deriving DecidableEq

/-- `new User(data).save()`: schema validation first, then the insert hits
the unique indexes on `username`/`email` (email compared against the
lowercased stored value). On success the document is appended to the
structured collection; the legacy collection is untouched. -/
def mongooseSave (s : Store) (d : NewUserData) : Except MongooseErr (MUser × Store) :=
  if !validMUserData d then .error .validation
  else if s.structured.any
      (fun a => a.username == d.username || a.email == lowerStr d.email) then
    .error .duplicateKey
  else
    .ok (mkMUser d, { s with structured := s.structured ++ [mkMUser d] })

namespace UserValidator

/-- `UserValidator.checkLegacyStructure(email, username)`: scans the legacy
list; with a truthy `username` it matches on exact email or exact username,
otherwise on exact email only (strict `===`, no case folding). -/
def checkLegacyStructure (s : Store) (email : String) (username : String) : Bool :=
  match s.legacyUsers with
  | some l =>
      (l.find? (fun u =>
        if username ≠ "" then u.email == email || u.username == username
        else u.email == email)).isSome
  | none => false

/-- `UserValidator.userExists(email, username)`: Mongoose `findOne` on
`email` (query value lowercased by the schema setter) or, when a username is
supplied, `$or` of email and username; falls back to the legacy scan. -/
def userExists (s : Store) (email : String) (username : String) : Bool :=
  let mongooseHit :=
    if username ≠ "" then
      (s.structured.find? (fun a =>
        a.email == lowerStr email || a.username == username)).isSome
    else
      (s.structured.find? (fun a => a.email == lowerStr email)).isSome
  if mongooseHit then true
  else checkLegacyStructure s email username

/-- `UserValidator.isUsernameTaken(username)`: Mongoose `findOne` on
username, then an exact-match scan of the legacy list. -/
def isUsernameTaken (s : Store) (username : String) : Bool :=
  if (s.structured.find? (fun a => a.username == username)).isSome then true
  else
    match s.legacyUsers with
    | some l => (l.find? (fun u => u.username == username)).isSome
    | none => false

/-- The unanchored validator email test `/\S+@\S+\.\S+/.test(email)`
(`src/services/modules/userValidator.js`): the string contains a `@`
preceded by a non-space character and followed by a non-empty non-space run,
then a `.`, then a non-space character. -/
def emailTest (s : String) : Bool :=
  let cs := s.toList
  let n := cs.length
  (List.range n).any (fun i =>
    (List.range n).any (fun j =>
      1 ≤ i && i + 2 ≤ j && j + 1 < n &&
      cs.getD i ' ' == '@' && cs.getD j ' ' == '.' &&
      !isJsSpace (cs.getD (i - 1) ' ') &&
      ((List.range (j - i - 1)).all (fun k => !isJsSpace (cs.getD (i + 1 + k) ' '))) &&
      !isJsSpace (cs.getD (j + 1) ' ')))

/-- `UserValidator.validateUserData`: collects field errors and, when both
username and email are truthy, the duplicate-identity error from
`userExists`. Returns the error list (`isValid` iff it is empty). -/
def validateUserData (s : Store) (username email password : String) : List String :=
  (if username == "" || username.length < 3 then
    ["Username must be at least 3 characters long"] else []) ++
  (if email == "" || !emailTest email then
    ["Valid email address is required"] else []) ++
  (if password == "" || password.length < 6 then
    ["Password must be at least 6 characters long"] else []) ++
  (if username ≠ "" && email ≠ "" && userExists s email username then
    ["This email is already used!"] else [])

end UserValidator

/-- A record returned by a repository lookup: either a structured-store
document or a raw legacy sub-record (the JS returns either shape as-is; the
tag records which tier it came from). -/
inductive Found where
  | fromNew : MUser → Found
  | fromLegacy : LegacyUser → Found
deriving DecidableEq

namespace UserRepository

/-- `UserRepository.findInLegacyStructure(criteria)` specialised to an
email criterion: exact (`===`) match on `email`; a falsy criterion matches
nothing. -/
def findInLegacyStructureByEmail (s : Store) (email : String) : Option LegacyUser :=
  match s.legacyUsers with
  | some l => l.find? (fun u => email ≠ "" && u.email == email)
  | none => none

/-- `UserRepository.findByEmail(email)`: Mongoose `findOne` on `email`
(query value lowercased by the schema setter), then the legacy scan. -/
def findByEmail (s : Store) (email : String) : Option Found :=
  match s.structured.find? (fun a => a.email == lowerStr email) with
  | some u => some (.fromNew u)
  | none => (findInLegacyStructureByEmail s email).map .fromLegacy

/-- `UserRepository.findByEmailForLogin(email)`: same lookup; the
`select("+loginAttempts +lockUntil")` projection is a no-op in this model,
which always carries every field. -/
def findByEmailForLogin (s : Store) (email : String) : Option Found :=
  findByEmail s email

/-- `UserRepository.findAll()`: the structured-store contents when
non-empty, otherwise the legacy `users` list verbatim, otherwise `[]`. -/
def findAll (s : Store) : List Found :=
  if s.structured ≠ [] then s.structured.map .fromNew
  else
    match s.legacyUsers with
    | some l => l.map .fromLegacy
    | none => []

/-- Errors of `UserRepository.create`: the MongoDB duplicate-key error
(code 11000) is mapped to the message "User with this email or username
already exists" (the `DuplicateIdentity` kind); any other save error is
re-wrapped as a generic creation error. -/
inductive CreateErr where
  | duplicateKeyError : CreateErr
  | createFailed : CreateErr
deriving DecidableEq

/-- `UserRepository.create(userData)`: `new User(userData).save()`; only
the structured store is consulted and written. -/
def create (s : Store) (d : NewUserData) : Except CreateErr (MUser × Store) :=
  match mongooseSave s d with
  | .ok r => .ok r
  | .error .duplicateKey => .error .duplicateKeyError
  | .error .validation => .error .createFailed

end UserRepository

namespace UserService

/-- Errors of `UserService.addUser`: the validator's error list (thrown
joined in the JS) or a repository creation error. -/
inductive AddUserError where
  | validationFailed : List String → AddUserError
  | duplicateKeyError : AddUserError
  | createFailed : AddUserError
deriving DecidableEq

/-- The claim-level `DuplicateIdentity` error kind (§7 of the spec): either
the validator pre-check message "This email is already used!" is among the
errors, or the store's duplicate-key violation was surfaced. -/
def isDuplicateIdentity : AddUserError → Bool
  | .validationFailed errs => errs.contains "This email is already used!"
  | .duplicateKeyError => true
  | .createFailed => false

/-- `UserService.addUser(userData)`: validate (throwing the joined error
list if any), then `UserRepository.create`. An `Except.error` result means
nothing was written: the JS throws before `create` is reached or inside it
before any successful insert. -/
def addUser (s : Store) (username email password : String) (isActivated : Bool) :
    Except AddUserError (MUser × Store) :=
  let errors := UserValidator.validateUserData s username email password
  if errors ≠ [] then .error (.validationFailed errors)
  else
    match UserRepository.create s ⟨username, email, password, isActivated⟩ with
    | .ok r => .ok r
    | .error .duplicateKeyError => .error .duplicateKeyError
    | .error .createFailed => .error .createFailed

end UserService

namespace UserModel

/-- `MAX_LOGIN_ATTEMPTS` from `src/models/User.js`. -/
def maxLoginAttempts : Nat := 4

/-- `LOCK_TIME` from `src/models/User.js` (5 minutes in milliseconds). -/
def lockTime : Nat := 5 * 60 * 1000

/-- The `isLocked` virtual: `lockUntil` present and strictly in the
future. -/
def isLockedAt (u : MUser) (now : Nat) : Bool :=
  match u.lockUntil with
  | some t => now < t
  | none => false

/-- Does the first branch of `incrementLoginAttempts` fire: a `lockUntil`
that is present but strictly in the past. -/
def hasStaleLock (u : MUser) (now : Nat) : Bool :=
  match u.lockUntil with
  | some t => t < now
  | none => false

/-- `userSchema.methods.incrementLoginAttempts`: a stale lock resets the
counter to 1 and clears `lockUntil`; otherwise the counter is incremented
and, when the pre-update `loginAttempts + 1` reaches `MAX_LOGIN_ATTEMPTS`
while the account is not currently locked, `lockUntil` is set to
`now + LOCK_TIME`. -/
def incrementLoginAttempts (u : MUser) (now : Nat) : MUser :=
  if hasStaleLock u now then
    { u with loginAttempts := 1, lockUntil := none }
  else if u.loginAttempts + 1 ≥ maxLoginAttempts && !isLockedAt u now then
    { u with loginAttempts := u.loginAttempts + 1, lockUntil := some (now + lockTime) }
  else
    { u with loginAttempts := u.loginAttempts + 1 }

/-- `userSchema.methods.resetLoginAttempts`. -/
def resetLoginAttempts (u : MUser) : MUser :=
  { u with loginAttempts := 0, lockUntil := none }

end UserModel

namespace UserService

/-- Modelled from the spec: `UserService.isAccountLocked` is called by the
login route but its definition is not among the source files. Per §4.3, an
account is Locked iff `lockedUntil` is present and in the future, and
"legacy-shape accounts have no lockout fields and are permanently treated
as Open"; this coincides with the `isLocked` virtual of `src/models/User.js`
for structured accounts. -/
def isAccountLocked (f : Found) (now : Nat) : Bool :=
  match f with
  | .fromNew u => UserModel.isLockedAt u now
  | .fromLegacy _ => false

/-- Modelled from the spec: `UserService.findUserForLogin` is called by the
login route but not defined in the source files; per §4.1 it is the
repository's authentication lookup (`findByEmailForLogin`), which
"guarantees lockout fields are included". -/
def findUserForLogin (s : Store) (email : String) : Option Found :=
  UserRepository.findByEmailForLogin s email

/-- Replace the structured-store document with the given username (the
unique key) — the model of a Mongoose `updateOne` on a loaded document. -/
def updateStructured (s : Store) (username : String) (f : MUser → MUser) : Store :=
  { s with structured := s.structured.map (fun a => if a.username == username then f a else a) }

/-- Modelled from the spec: `UserService.handleFailedLogin` is called by the
login route but not defined in the source files; per §4.3 a failed
verification performs the failed-attempt transition
(`incrementLoginAttempts` of `src/models/User.js`) on the account, and
"failed-login tracking does not apply" to legacy-shape accounts. -/
def handleFailedLogin (s : Store) (f : Found) (now : Nat) : Store :=
  match f with
  | .fromNew u => updateStructured s u.username (fun a => UserModel.incrementLoginAttempts a now)
  | .fromLegacy _ => s

/-- Modelled from the spec: `UserService.handleSuccessfulLogin` is called by
the login route but not defined in the source files; per §4.3 a successful
verification resets `failedAttempts` and clears `lockedUntil`
(`resetLoginAttempts` of `src/models/User.js`). -/
def handleSuccessfulLogin (s : Store) (f : Found) : Store :=
  match f with
  | .fromNew u => updateStructured s u.username UserModel.resetLoginAttempts
  | .fromLegacy _ => s

end UserService

/-- The observable outcomes of the login route `loginUser`
(`src/unnamed/part_005`, the lockout-aware variant): HTTP 400 missing
fields, 401 invalid credentials (with remaining attempts after a failed
verification), 423 locked before verification (with remaining minutes),
423 locked as a result of this failure, or 200 success. -/
inductive LoginResult where
  | missingFields : LoginResult
  | invalidCredentials : Option Nat → LoginResult
  | accountLocked : Nat → LoginResult
  | lockedAfterFail : Option Nat → LoginResult
  | success : LoginResult
deriving DecidableEq

/-- The stored password digest of a found record. -/
def Found.passwordOf : Found → String
  | .fromNew u => u.password
  | .fromLegacy u => u.password

/-- The `loginAttempts` the route reads off the re-fetched user
(`updatedUser.loginAttempts || 0`: absent on legacy records). -/
def Found.attemptsOf : Found → Nat
  | .fromNew u => u.loginAttempts
  | .fromLegacy _ => 0

/-- The `lockUntil` field the route reads (absent on legacy records). -/
def Found.lockUntilOf : Found → Option Nat
  | .fromNew u => u.lockUntil
  | .fromLegacy _ => none

/-- `Math.ceil((lockTime - Date.now()) / 60000)` on the locked branch of
the login route, followed by the `remainingTime > 0 ? remainingTime : 0`
clamp; in `Nat` arithmetic the truncated-at-zero subtraction and ceiling
division give the same reported value. -/
def remainingLockMinutes (lockUntil now : Nat) : Nat :=
  (lockUntil - now + 59999) / 60000

/-- `loginUser` (`src/unnamed/part_005`, lockout-aware variant) as a pure
function of the store, the request fields, the clock and the bcrypt
comparison oracle `verify plaintext digest`. Returns the HTTP-level result,
the store after any lockout bookkeeping writes, and whether
`bcrypt.compare` was executed during the request. -/
def loginUser (s : Store) (email password : String) (now : Nat)
    (verify : String → String → Bool) : LoginResult × Store × Bool :=
  if email == "" || password == "" then (.missingFields, s, false)
  else
    match UserService.findUserForLogin s email with
    | none => (.invalidCredentials none, s, false)
    | some user =>
      if UserService.isAccountLocked user now then
        (.accountLocked (remainingLockMinutes ((Found.lockUntilOf user).getD 0) now), s, false)
      else if !verify password (Found.passwordOf user) then
        let s1 := UserService.handleFailedLogin s user now
        match UserService.findUserForLogin s1 email with
        | none => (.invalidCredentials (some (4 - 0)), s1, true)
        | some updated =>
          if UserService.isAccountLocked updated now then
            (.lockedAfterFail (Found.lockUntilOf updated), s1, true)
          else
            (.invalidCredentials (some (4 - Found.attemptsOf updated)), s1, true)
      else
        (.success, UserService.handleSuccessfulLogin s user, true)

namespace UserMigration

/-- Result of `UserMigration.migrateUser` for one legacy entry: freshly
migrated, skipped because a structured-store account with the same username
or email already exists, or failed with an error message
(`success: false`). -/
inductive Outcome where
  | migrated : Outcome
  | skippedExisting : Outcome
  | failed : String → Outcome
deriving DecidableEq

/-- The data `migrateUser` passes to `new User(...)` for a legacy entry
(`isActivated: userData.isActivated || false`; the `avatar` / `createdAt` /
`lastLogin` spreads are not modelled — `avatar` is not in the schema and no
claim concerns the timestamps). -/
def legacyToNewData (u : LegacyUser) : NewUserData :=
  { username := u.username
    email := u.email
    password := u.password
    isActivated := u.isActivated }

/-- `UserMigration.migrateUser(userData)`: check structured-store existence
by username or email (`$or` query, email value lowercased by the schema
setter); if found, skip; if username or email is falsy, fail; otherwise
save a new structured document. Returns the outcome and the store (updated
only on a successful save). -/
def migrateUser (s : Store) (u : LegacyUser) : Outcome × Store :=
  if (s.structured.find? (fun a =>
      a.username == u.username || a.email == lowerStr u.email)).isSome then
    (.skippedExisting, s)
  else if u.username == "" || u.email == "" then
    (.failed "Missing required fields (username or email)", s)
  else
    match mongooseSave s (legacyToNewData u) with
    | .ok (_, s1) => (.migrated, s1)
    | .error _ => (.failed "validation failed", s)

/-- The migration report: counts of migrated and skipped entries plus the
per-account error messages (there is no separate errored count). -/
structure Report where
  migrated : Nat
  skipped : Nat
  errors : List String
deriving DecidableEq

/-- The per-entry loop body of `migrateUsersToNewStructure`: a migrated
entry increments `migrated`; a skip increments `skipped`; a failure appends
`"username: error"` to the error list and also increments `skipped`. -/
def migrateLoop (s : Store) : List LegacyUser → Report → Report × Store
  | [], acc => (acc, s)
  | u :: rest, acc =>
    match migrateUser s u with
    | (.migrated, s1) => migrateLoop s1 rest { acc with migrated := acc.migrated + 1 }
    | (.skippedExisting, s1) => migrateLoop s1 rest { acc with skipped := acc.skipped + 1 }
    | (.failed msg, s1) =>
      migrateLoop s1 rest
        { acc with skipped := acc.skipped + 1
                   errors := acc.errors ++ [u.username ++ ": " ++ msg] }

/-- `UserMigration.migrateUsersToNewStructure()`: returns
`{migrated: 0, skipped: 0, errors: []}` when there is no legacy document or
no `users` field; otherwise runs the per-entry loop over the legacy list. -/
def migrateUsersToNewStructure (s : Store) : Report × Store :=
  match s.legacyUsers with
  | none => (⟨0, 0, []⟩, s)
  | some l => migrateLoop s l ⟨0, 0, []⟩

/-- `getMigrationStatus().newStructure`: `User.countDocuments({})`. -/
def newStructureCount (s : Store) : Nat := s.structured.length

/-- `getMigrationStatus().legacyStructure`:
`usersDoc && usersDoc.users ? usersDoc.users.length : 0`. -/
def legacyStructureCount (s : Store) : Nat :=
  match s.legacyUsers with
  | some l => l.length
  | none => 0

/-- `updateOne({}, { $unset: { users: "" } })` on the legacy collection:
removes the `users` field of the single document when one exists. -/
def unsetLegacyUsers (s : Store) : Store :=
  match s.legacy with
  | .noDoc => s
  | .docNoUsers => s
  | .docUsers _ => { s with legacy := .docNoUsers }

/-- `UserMigration.cleanupLegacyStructure(force)`: throws without `force`;
throws when legacy entries exist but the structured store is empty;
otherwise unsets the legacy `users` field and reports the removed count. -/
def cleanupLegacyStructure (s : Store) (force : Bool) : Except String (Nat × Store) :=
  if !force then
    .error "Cleanup requires force parameter to be true for safety"
  else if legacyStructureCount s > 0 && newStructureCount s == 0 then
    .error "Cannot cleanup: No users found in new structure but legacy users exist"
  else
    .ok (legacyStructureCount s, unsetLegacyUsers s)

end UserMigration

namespace UsernameGenerator

/-- `UsernameGenerator.cleanUsername(username)`: lowercase, strip every
character outside `[a-z0-9]`, truncate to 20 characters. -/
def cleanUsername (username : String) : String :=
  String.mk (((lowerStr username).toList.filter
    (fun c => ('a' ≤ c && c ≤ 'z') || ('0' ≤ c && c ≤ '9'))).take 20)

/-- `Date.now().toString().slice(-6)`: the last six decimal digits of the
epoch-millisecond timestamp (the whole string when shorter). -/
def lastSixDigits (ts : Nat) : String :=
  let s := toString ts
  String.mk (s.toList.drop (s.length - 6))

/-- A character of the `nanoid` default url-safe alphabet
(`A-Za-z0-9_-`), the documented output alphabet of the `nanoid` package the
generator draws its suffixes from. -/
def isNanoidChar (c : Char) : Bool :=
  ('a' ≤ c && c ≤ 'z') || ('A' ≤ c && c ≤ 'Z') || ('0' ≤ c && c ≤ '9') ||
  c == '_' || c == '-'

/-- A possible value of `nanoid(4)`: four characters of the nanoid
alphabet. -/
def isNanoidSuffix (suf : String) : Bool :=
  suf.length == 4 && suf.toList.all isNanoidChar

/-- The retry loop of `generateWithSuffix`: up to `fuel` candidates
`base ++ "_" ++ suffixes i` (the injected random source supplies the draw
of each attempt `i`), returning the first one not taken. -/
def trySuffixes (s : Store) (base : String) (suffixes : Nat → String) :
    Nat → Nat → Option String
  | 0, _ => none
  | fuel + 1, i =>
    let candidate := base ++ "_" ++ suffixes i
    if !UserValidator.isUsernameTaken s candidate then some candidate
    else trySuffixes s base suffixes fuel (i + 1)

/-- `UsernameGenerator.generateWithSuffix(baseUsername)`: ten attempts with
a random 4-character suffix, then the timestamp fallback
`base ++ "_" ++ Date.now().toString().slice(-6)` with no further existence
check. -/
def generateWithSuffix (s : Store) (base : String) (suffixes : Nat → String)
    (nowTs : Nat) : String :=
  match trySuffixes s base suffixes 10 0 with
  | some candidate => candidate
  | none => base ++ "_" ++ lastSixDigits nowTs

/-- `UsernameGenerator.generateUniqueUsername(desiredUsername)`: clean,
require 3 cleaned characters, return the cleaned name when free, otherwise
defer to the suffix generator. -/
def generateUniqueUsername (s : Store) (desired : String) (suffixes : Nat → String)
    (nowTs : Nat) : Except String String :=
  let clean := cleanUsername desired
  if clean.length < 3 then
    .error "Username must be at least 3 characters long after cleaning"
  else if !UserValidator.isUsernameTaken s clean then
    .ok clean
  else
    .ok (generateWithSuffix s clean suffixes nowTs)

end UsernameGenerator

/-- The suffix pattern `[a-z0-9]{4}` claimed by the spec for the username
generator's random suffix (stated from the spec's words, to be compared
with what the code produces). -/
def specLowerAlnumSuffix (rest : String) : Bool :=
  rest.length == 4 &&
  rest.toList.all (fun c => ('a' ≤ c && c ≤ 'z') || ('0' ≤ c && c ≤ '9'))

/-! ## Concrete fixtures used by witnesses and counterexamples -/

/-- A structured-store account, as left behind by a successful
registration (email stored lowercased, fresh lockout fields). -/
def bobM : MUser := ⟨"bob", "b@x.com", "hashedpw1", false, 0, none⟩

/-- A legacy-shape account with the same identity. -/
def bobLegacy : LegacyUser := ⟨"bob", "b@x.com", "legacypw", false⟩

/-- Creation data conflicting with `bobLegacy` (valid fields). -/
def bobData : NewUserData := ⟨"bob", "b@x.com", "hashedpw1", false⟩

/-- Store holding `bobM` in the structured tier only. -/
def storeBobNew : Store := ⟨[bobM], .noDoc⟩

/-- Store holding `bobLegacy` in the legacy tier only. -/
def storeBobLegacy : Store := ⟨[], .docUsers [bobLegacy]⟩

/-- A structured-store account locked until t = 500000. -/
def lockedAlice : MUser := ⟨"alice", "a@x.com", "hashedpw2", true, 4, some 500000⟩

/-- Store holding the locked account. -/
def storeLocked : Store := ⟨[lockedAlice], .noDoc⟩

/-- An account with three failed attempts and no lock. -/
def threeStrikes : MUser := ⟨"carl", "c@x.com", "hashedpw3", false, 3, none⟩

/-- A legacy account whose stored email has mixed case. -/
def caseLegacyUser : LegacyUser := ⟨"john", "John@Example.com", "pw55", false⟩

/-- Store holding only `caseLegacyUser`, in the legacy tier. -/
def storeCaseLegacy : Store := ⟨[], .docUsers [caseLegacyUser]⟩

/-- Store in which the handle "johndoe" is taken (legacy tier). -/
def storeJohndoeTaken : Store := ⟨[], .docUsers [⟨"johndoe", "j@x.com", "pw55", false⟩]⟩

/-- Store in which "johndoe", the suffix candidate "johndoe_aaaa" and the
timestamp fallback "johndoe_234567" are all taken. -/
def storeJohndoeAll : Store :=
  ⟨[], .docUsers
    [⟨"johndoe", "j@x.com", "pw55", false⟩,
     ⟨"johndoe_aaaa", "j2@x.com", "pw55", false⟩,
     ⟨"johndoe_234567", "j3@x.com", "pw55", false⟩]⟩

/-- Store with an empty structured tier and an empty (but present) legacy
`users` list. -/
def storeEmptyBoth : Store := ⟨[], .docUsers []⟩

/-- Two well-formed, pairwise-distinct legacy accounts. -/
def legacyPair : List LegacyUser :=
  [⟨"alice", "alice@x.com", "pass1234", false⟩,
   ⟨"dave", "dave@x.com", "pass5678", false⟩]

/-- Store with `legacyPair` awaiting migration and an empty structured
tier. -/
def storeMig : Store := ⟨[], .docUsers legacyPair⟩

/-- Store with accounts in both tiers (cleanup precondition satisfied). -/
def storeCleanupOk : Store := ⟨[bobM], .docUsers [bobLegacy]⟩

/-! ## Helper lemmas -/

/-- `find?` succeeds exactly when `any` does. -/
theorem aux_find?_isSome_eq_any {α : Type} (l : List α) (p : α → Bool) :
    (l.find? p).isSome = l.any p := by
  induction l with
  | nil => rfl
  | cons a t ih =>
    by_cases h : p a = true
    · simp [List.find?, List.any, h]
    · simp only [Bool.not_eq_true] at h
      simp [List.find?, List.any, h, ih]

/-- `find?` returns the unique element satisfying the predicate. -/
theorem aux_find?_eq_some_of_unique {α : Type} {l : List α} {p : α → Bool} {u : α}
    (hu : u ∈ l) (hpu : p u = true) (huniq : ∀ v ∈ l, p v = true → v = u) :
    l.find? p = some u := by
  induction l with
  | nil => cases hu
  | cons a t ih =>
    by_cases h : p a = true
    · have ha : a = u := huniq a (List.mem_cons_self a t) h
      subst ha
      simp [List.find?, h]
    · simp only [Bool.not_eq_true] at h
      have hu' : u ∈ t := by
        rcases List.mem_cons.mp hu with rfl | ht
        · rw [hpu] at h; cases h
        · exact ht
      simp only [List.find?, h]
      exact ih hu' (fun v hv hpv => huniq v (List.mem_cons_of_mem a hv) hpv)

/-- `find?` misses when every element fails the predicate. -/
theorem aux_find?_eq_none {α : Type} {l : List α} {p : α → Bool}
    (h : ∀ x ∈ l, p x = false) : l.find? p = none := by
  induction l with
  | nil => rfl
  | cons a t ih =>
    simp only [List.find?, h a (List.mem_cons_self a t)]
    exact ih (fun x hx => h x (List.mem_cons_of_mem a hx))

/-- `any` holds once a member satisfies the predicate. -/
theorem aux_any_of_mem {α : Type} {l : List α} {p : α → Bool} {x : α}
    (hx : x ∈ l) (hp : p x = true) : l.any p = true := by
  induction l with
  | nil => cases hx
  | cons a t ih =>
    rcases List.mem_cons.mp hx with rfl | ht
    · simp [List.any, hp]
    · simp [List.any, ih ht]

/-- A valid Mongoose email is non-empty. -/
theorem aux_emailShapeValid_ne_empty {e : String} (h : emailShapeValid e = true) :
    e ≠ "" := by
  intro he
  subst he
  exact absurd h (by decide)

/-! ## Claim theorems -/

/-- Distinct values are `==`-false. -/
theorem aux_beq_eq_false {α : Type} [BEq α] [LawfulBEq α] {a b : α} (h : a ≠ b) :
    (a == b) = false := by
  cases hab : a == b with
  | false => rfl
  | true => exact absurd (eq_of_beq hab) h

/-- Field facts of a schema-valid user document. -/
theorem aux_validMUserData_fields {d : NewUserData} (h : validMUserData d = true) :
    d.username ≠ "" ∧ emailShapeValid d.email = true := by
  simp only [validMUserData, Bool.and_eq_true, decide_eq_true_eq] at h
  exact ⟨h.1.1.1.1.1, h.1.1.2⟩

/-- Claim C3: one failed credential verification performs exactly the
failed-attempt transition of `incrementLoginAttempts`: a present but
elapsed `lockUntil` resets `loginAttempts` to 1 and clears the lock;
otherwise `loginAttempts` is incremented by 1 and, exactly when the
post-increment count reaches the threshold 4 while the account is not
currently locked, `lockUntil` is set to now plus the 5-minute lock
duration. -/
theorem claim_C3_lockout_transition (u : MUser) (now : Nat) :
    (∀ t, u.lockUntil = some t → t < now →
      UserModel.incrementLoginAttempts u now =
        { u with loginAttempts := 1, lockUntil := none }) ∧
    (UserModel.hasStaleLock u now = false →
      (UserModel.incrementLoginAttempts u now).loginAttempts = u.loginAttempts + 1 ∧
      (u.loginAttempts + 1 ≥ UserModel.maxLoginAttempts ∧
          UserModel.isLockedAt u now = false →
        (UserModel.incrementLoginAttempts u now).lockUntil =
          some (now + UserModel.lockTime)) ∧
      (¬(u.loginAttempts + 1 ≥ UserModel.maxLoginAttempts ∧
          UserModel.isLockedAt u now = false) →
        (UserModel.incrementLoginAttempts u now).lockUntil = u.lockUntil)) := by
  constructor
  · intro t ht hlt
    have hstale : UserModel.hasStaleLock u now = true := by
      simp [UserModel.hasStaleLock, ht, hlt]
    simp [UserModel.incrementLoginAttempts, hstale]
  · intro hstale
    refine ⟨?_, ?_, ?_⟩
    · simp only [UserModel.incrementLoginAttempts, hstale, Bool.false_eq_true,
        if_false]
      split <;> rfl
    · rintro ⟨hcnt, hnl⟩
      simp [UserModel.incrementLoginAttempts, hstale, hcnt, hnl]
    · intro hnot
      simp only [UserModel.incrementLoginAttempts, hstale, Bool.false_eq_true,
        if_false]
      split
      · rename_i hcond
        simp only [Bool.and_eq_true, decide_eq_true_eq, Bool.not_eq_true'] at hcond
        exact absurd hcond hnot
      · rfl

/-- Witness for C3 at an account with three failed attempts and no lock:
the fourth failure increments the counter to 4 and sets the 5-minute
lock. -/
theorem claim_C3_witness :
    (UserModel.incrementLoginAttempts threeStrikes 1000).loginAttempts =
      threeStrikes.loginAttempts + 1 ∧
    (UserModel.incrementLoginAttempts threeStrikes 1000).lockUntil =
      some (1000 + UserModel.lockTime) := by
  have h := (claim_C3_lockout_transition threeStrikes 1000).2 (by decide)
  exact ⟨h.1, h.2.1 ⟨by decide, by decide⟩⟩

/-- Claim C6: `findAll` returns exactly the structured-store contents
whenever that store is non-empty, and otherwise the legacy list verbatim
(the empty sequence when no legacy list exists); it never mixes the two
shapes. -/
theorem claim_C6_findAll (s : Store) :
    (s.structured ≠ [] → UserRepository.findAll s = s.structured.map Found.fromNew) ∧
    (s.structured = [] →
      UserRepository.findAll s =
        match s.legacyUsers with
        | some l => l.map Found.fromLegacy
        | none => []) := by
  constructor
  · intro h
    simp [UserRepository.findAll, h]
  · intro h
    simp [UserRepository.findAll, h]

/-- Witness for C6 at a store with a non-empty structured tier. -/
theorem claim_C6_witness :
    UserRepository.findAll storeBobNew = storeBobNew.structured.map Found.fromNew :=
  (claim_C6_findAll storeBobNew).1 (by decide)

/-- Claim C4: when the found account's `lockUntil` is present and in the
future, the login route answers `accountLocked` with the remaining lock
minutes (a positive count), leaves the store untouched, and the bcrypt
comparison is never executed — the result does not depend on the `verify`
oracle, hence not on the submitted password. -/
theorem claim_C4_locked_refusal (s : Store) (email password : String) (now t : Nat)
    (u : MUser) (verify : String → String → Bool)
    (he : email ≠ "") (hp : password ≠ "")
    (hfind : UserService.findUserForLogin s email = some (.fromNew u))
    (hlock : u.lockUntil = some t) (hfut : now < t) :
    loginUser s email password now verify =
      (.accountLocked (remainingLockMinutes t now), s, false) ∧
    0 < remainingLockMinutes t now := by
  have hlocked : UserService.isAccountLocked (.fromNew u) now = true := by
    simp [UserService.isAccountLocked, UserModel.isLockedAt, hlock, hfut]
  constructor
  · simp [loginUser, he, hp, hfind, hlocked, Found.lockUntilOf, hlock]
  · have h60 : (0 : Nat) < 60000 := by norm_num
    exact Nat.div_pos (by omega) h60

/-- Counterexample to C1 as stated: the account `bobM` (the record a
successful registration leaves in the structured store) exists, yet a
second registration attempt with the same email and an empty supplied
handle fails with only the username-length validation message — the
duplicate pre-check is skipped, so the failure is not `DuplicateIdentity`. -/
theorem claim_C1_counterexample :
    UserService.addUser storeBobNew "" "b@x.com" "secret123" false =
      Except.error (.validationFailed ["Username must be at least 3 characters long"]) ∧
    UserService.isDuplicateIdentity
      (.validationFailed ["Username must be at least 3 characters long"]) = false := by
  decide

/-- Claim C1 (amended): provided the supplied handle is non-empty, a
registration attempt whose email already belongs to an account in either
tier (structured store — stored lowercased — or legacy list) fails with
the `DuplicateIdentity` message among the validation errors; nothing is
written (the `Except.error` path of `addUser` performs no store write). -/
theorem claim_C1_duplicate_email (s : Store) (username email password : String)
    (act : Bool) (hu : username ≠ "") (he : email ≠ "")
    (hex : (∃ a ∈ s.structured, a.email = lowerStr email) ∨
           (∃ l, s.legacyUsers = some l ∧ ∃ v ∈ l, v.email = email)) :
    ∃ errs, UserService.addUser s username email password act =
        Except.error (.validationFailed errs) ∧
      "This email is already used!" ∈ errs := by
  have hexists : UserValidator.userExists s email username = true := by
    rcases hex with ⟨a, ha, hae⟩ | ⟨l, hl, v, hv, hve⟩
    · have hfind : (s.structured.find? (fun x =>
          x.email == lowerStr email || x.username == username)).isSome = true := by
        rw [aux_find?_isSome_eq_any]
        exact aux_any_of_mem ha (by simp [hae])
      simp [UserValidator.userExists, hu, hfind]
    · have hleg : UserValidator.checkLegacyStructure s email username = true := by
        have hfind : (l.find? (fun u =>
            if username ≠ "" then u.email == email || u.username == username
            else u.email == email)).isSome = true := by
          rw [aux_find?_isSome_eq_any]
          exact aux_any_of_mem hv (by simp [hu, hve])
        simp only [UserValidator.checkLegacyStructure, hl]
        exact hfind
      simp only [UserValidator.userExists, hu, if_true]
      by_cases hm : (s.structured.find? (fun a =>
          a.email == lowerStr email || a.username == username)).isSome = true
      · simp [hm]
        exact Or.inl (Or.inl hu)
      · simp [hm, hleg]
  have hmem : "This email is already used!" ∈
      UserValidator.validateUserData s username email password := by
    have hcond : (username ≠ "" && email ≠ "" &&
        UserValidator.userExists s email username) = true := by
      simp [hu, he, hexists]
    simp only [UserValidator.validateUserData, hcond, if_true]
    simp
  refine ⟨UserValidator.validateUserData s username email password, ?_, hmem⟩
  have hne : UserValidator.validateUserData s username email password ≠ [] :=
    List.ne_nil_of_mem hmem
  simp [UserService.addUser, hne]

/-- Witness for C1 (amended) at the structured-store account `bobM`. -/
theorem claim_C1_witness :
    ∃ errs, UserService.addUser storeBobNew "alice" "b@x.com" "secret123" false =
        Except.error (.validationFailed errs) ∧
      "This email is already used!" ∈ errs :=
  claim_C1_duplicate_email storeBobNew "alice" "b@x.com" "secret123" false
    (by decide) (by decide) (Or.inl ⟨bobM, by decide, by decide⟩)

/-- Counterexample to C2 as stated: a conflicting account exists in the
legacy shape only, yet `create` succeeds and writes the new document —
the repository's `create` performs no legacy-collection scan. -/
theorem claim_C2_counterexample :
    (∃ l, storeBobLegacy.legacyUsers = some l ∧
      ∃ v ∈ l, v.username = bobData.username ∧ v.email = bobData.email) ∧
    UserRepository.create storeBobLegacy bobData =
      .ok (mkMUser bobData, ⟨[mkMUser bobData], .docUsers [bobLegacy]⟩) :=
  ⟨⟨[bobLegacy], by decide, bobLegacy, by decide, by decide, by decide⟩, by decide⟩

/-- Claim C2 (amended): `create` writes only into the structured store —
a successful create appends exactly the new document there and leaves the
legacy collection untouched — and maps a structured-store duplicate-key
violation to the `DuplicateIdentity` error; a conflict that exists only in
the legacy shape is not detected by `create` itself (it is caught by the
validator pre-check of the registration flow). -/
theorem claim_C2_create (s : Store) (d : NewUserData) :
    (validMUserData d = true →
      s.structured.any (fun a =>
        a.username == d.username || a.email == lowerStr d.email) = true →
      UserRepository.create s d = .error .duplicateKeyError) ∧
    (∀ u s1, UserRepository.create s d = .ok (u, s1) →
      u = mkMUser d ∧ s1.structured = s.structured ++ [mkMUser d] ∧
      s1.legacy = s.legacy) := by
  constructor
  · intro hv hconf
    simp [UserRepository.create, mongooseSave, hv, hconf]
  · intro u s1 h
    by_cases hv : validMUserData d = true
    · by_cases hc : s.structured.any (fun a =>
          a.username == d.username || a.email == lowerStr d.email) = true
      · simp [UserRepository.create, mongooseSave, hv, hc] at h
      · simp only [Bool.not_eq_true] at hc
        simp [UserRepository.create, mongooseSave, hv, hc] at h
        obtain ⟨hu1, hs1⟩ := h
        exact ⟨hu1.symm, by rw [← hs1], by rw [← hs1]⟩
    · simp only [Bool.not_eq_true] at hv
      simp [UserRepository.create, mongooseSave, hv] at h

/-- Witness for C2 (amended): a structured-store conflict makes `create`
fail with the duplicate-key `DuplicateIdentity` error. -/
theorem claim_C2_witness :
    UserRepository.create storeBobNew bobData = .error .duplicateKeyError :=
  (claim_C2_create storeBobNew bobData).1 (by decide) (by decide)

/-- Counterexample to C7 as stated: the stored legacy email
"John@Example.com" and the query "john@example.com" differ only in letter
case, yet `findByEmail` misses — the legacy-tier scan compares emails with
strict equality. -/
theorem claim_C7_counterexample :
    lowerStr caseLegacyUser.email = lowerStr "john@example.com" ∧
    caseLegacyUser.email ≠ "john@example.com" ∧
    storeCaseLegacy.legacyUsers = some [caseLegacyUser] ∧
    UserRepository.findByEmail storeCaseLegacy "john@example.com" = none := by
  decide

/-- Claim C7 (amended): `findByEmail` matches case-insensitively in the
structured tier only — a structured account whose (lowercased) stored email
equals the lowercased query is returned for any case variant of the query —
while the legacy-tier scan matches the email exactly (case-sensitively). -/
theorem claim_C7_two_tier (s : Store) (e : String) :
    (∀ u, u ∈ s.structured → u.email = lowerStr e →
      (∀ v ∈ s.structured, v.email = lowerStr e → v = u) →
      UserRepository.findByEmail s e = some (.fromNew u)) ∧
    (∀ l v, s.structured.find? (fun a => a.email == lowerStr e) = none →
      s.legacyUsers = some l → v ∈ l → v.email = e → e ≠ "" →
      (∀ w ∈ l, w.email = e → w = v) →
      UserRepository.findByEmail s e = some (.fromLegacy v)) := by
  constructor
  · intro u hu hue huniq
    have hfind : s.structured.find? (fun a => a.email == lowerStr e) = some u :=
      aux_find?_eq_some_of_unique hu (by simp [hue])
        (fun v hv hpv => huniq v hv (by simpa using hpv))
    simp [UserRepository.findByEmail, hfind]
  · intro l v hnone hl hv hve hne huniq
    have hfind : l.find? (fun u => e ≠ "" && u.email == e) = some v := by
      refine aux_find?_eq_some_of_unique hv (by simp [hve, hne]) ?_
      intro w hw hpw
      simp only [Bool.and_eq_true, decide_eq_true_eq, beq_iff_eq] at hpw
      exact huniq w hw hpw.2
    simp only [UserRepository.findByEmail, hnone,
      UserRepository.findInLegacyStructureByEmail, hl, hfind, Option.map_some']

/-- Witness for C7 (amended): the structured account stored as "b@x.com"
is found under the case variant "B@X.com". -/
theorem claim_C7_witness :
    UserRepository.findByEmail storeBobNew "B@X.com" = some (.fromNew bobM) :=
  (claim_C7_two_tier storeBobNew "B@X.com").1 bobM (by decide) (by decide)
    (by decide)

/-- Counterexample to C9 as stated: with an empty structured store and an
empty (but present) legacy `users` list, forced cleanup succeeds and
removes the legacy list field, instead of failing and leaving it
unchanged. -/
theorem claim_C9_counterexample :
    UserMigration.newStructureCount storeEmptyBoth = 0 ∧
    UserMigration.cleanupLegacyStructure storeEmptyBoth true =
      .ok (0, ⟨[], .docNoUsers⟩) ∧
    (⟨[], .docNoUsers⟩ : Store).legacy ≠ storeEmptyBoth.legacy := by
  decide

/-- Claim C9 (amended): cleanup requires `force` and fails — leaving the
store untouched — when the legacy list is non-empty while the structured
store is empty; when the structured store is non-empty, or the legacy list
is empty or absent, forced cleanup proceeds and unsets the legacy `users`
field. -/
theorem claim_C9_cleanup (s : Store) (force : Bool) :
    (force = false →
      ∃ msg, UserMigration.cleanupLegacyStructure s force = .error msg) ∧
    (force = true → UserMigration.newStructureCount s = 0 →
      0 < UserMigration.legacyStructureCount s →
      ∃ msg, UserMigration.cleanupLegacyStructure s force = .error msg) ∧
    (force = true →
      (UserMigration.newStructureCount s ≠ 0 ∨
        UserMigration.legacyStructureCount s = 0) →
      UserMigration.cleanupLegacyStructure s force =
        .ok (UserMigration.legacyStructureCount s,
             UserMigration.unsetLegacyUsers s)) := by
  refine ⟨?_, ?_, ?_⟩
  · intro hf
    exact ⟨"Cleanup requires force parameter to be true for safety",
      by simp [UserMigration.cleanupLegacyStructure, hf]⟩
  · intro hf h0 hpos
    exact ⟨"Cannot cleanup: No users found in new structure but legacy users exist",
      by simp [UserMigration.cleanupLegacyStructure, hf, h0, hpos]⟩
  · intro hf hor
    rcases hor with h | h
    · simp [UserMigration.cleanupLegacyStructure, hf, h]
    · simp [UserMigration.cleanupLegacyStructure, hf, h]

/-- Witness for C9 (amended): forced cleanup on a store with accounts in
both tiers succeeds and unsets the legacy list field. -/
theorem claim_C9_witness :
    UserMigration.cleanupLegacyStructure storeCleanupOk true =
      .ok (UserMigration.legacyStructureCount storeCleanupOk,
           UserMigration.unsetLegacyUsers storeCleanupOk) :=
  (claim_C9_cleanup storeCleanupOk true).2.2 rfl (Or.inl (by decide))

/-- Witness for C4: the locked account `lockedAlice`, an oracle that
reports the password as correct, and a time well inside the lock window. -/
theorem claim_C4_witness :
    loginUser storeLocked "a@x.com" "correcthorse" 200000 (fun _ _ => true) =
      (.accountLocked (remainingLockMinutes 500000 200000), storeLocked, false) ∧
    0 < remainingLockMinutes 500000 200000 :=
  claim_C4_locked_refusal storeLocked "a@x.com" "correcthorse" 200000 500000
    lockedAlice (fun _ _ => true) (by decide) (by decide) (by decide) (by decide)
    (by decide)

/-- Counting invariant of the migration loop: every processed entry
increments exactly one of `migrated` / `skipped`, and every appended error
message comes with a `skipped` increment. -/
theorem aux_migrateLoop_counts (l : List LegacyUser) :
    ∀ (s : Store) (acc : UserMigration.Report),
    (UserMigration.migrateLoop s l acc).1.migrated +
        (UserMigration.migrateLoop s l acc).1.skipped =
      acc.migrated + acc.skipped + l.length ∧
    (UserMigration.migrateLoop s l acc).1.errors.length + acc.skipped ≤
      acc.errors.length + (UserMigration.migrateLoop s l acc).1.skipped := by
  induction l with
  | nil =>
    intro s acc
    simp [UserMigration.migrateLoop]
  | cons u rest ih =>
    intro s acc
    rcases hmu : UserMigration.migrateUser s u with ⟨o, s1⟩
    cases o with
    | migrated =>
      have h := ih s1 { acc with migrated := acc.migrated + 1 }
      simp only [UserMigration.migrateLoop, hmu] at h ⊢
      simp only [List.length_cons] at h ⊢
      omega
    | skippedExisting =>
      have h := ih s1 { acc with skipped := acc.skipped + 1 }
      simp only [UserMigration.migrateLoop, hmu] at h ⊢
      simp only [List.length_cons] at h ⊢
      omega
    | failed msg =>
      have h := ih s1
        { acc with
          skipped := acc.skipped + 1,
          errors := acc.errors ++ [u.username ++ ": " ++ msg] }
      simp only [UserMigration.migrateLoop, hmu] at h ⊢
      simp only [List.length_cons, List.length_append, List.length_singleton,
        List.length_nil] at h ⊢
      omega

/-- Claim C10: every migration run satisfies `migrated + skipped = N` for a
legacy list of `N` entries (`N = 0` when no legacy list exists), and the
error messages never outnumber the skips — a failing entry increments
`skipped` alongside its error message; the report has no separate errored
count. -/
theorem claim_C10_migration_counts (s : Store) :
    (UserMigration.migrateUsersToNewStructure s).1.migrated +
        (UserMigration.migrateUsersToNewStructure s).1.skipped =
      UserMigration.legacyStructureCount s ∧
    (UserMigration.migrateUsersToNewStructure s).1.errors.length ≤
      (UserMigration.migrateUsersToNewStructure s).1.skipped := by
  rcases hleg : s.legacyUsers with _ | l
  · simp [UserMigration.migrateUsersToNewStructure,
      UserMigration.legacyStructureCount, hleg]
  · have h := aux_migrateLoop_counts l s ⟨0, 0, []⟩
    simp only [UserMigration.migrateUsersToNewStructure,
      UserMigration.legacyStructureCount, hleg]
    simp only [List.length_nil] at h
    omega

/-- One fresh, valid legacy entry migrates: the existence pre-check misses,
the required-field check passes, and the save appends the converted
document. -/
theorem aux_migrateUser_fresh (s : Store) (u : LegacyUser)
    (hgood : validMUserData (UserMigration.legacyToNewData u) = true)
    (hfresh : s.structured.any (fun a =>
      a.username == u.username || a.email == lowerStr u.email) = false) :
    UserMigration.migrateUser s u =
      (.migrated, { s with structured :=
        s.structured ++ [mkMUser (UserMigration.legacyToNewData u)] }) := by
  obtain ⟨hname, hmail⟩ := aux_validMUserData_fields hgood
  have hmailne : u.email ≠ "" := aux_emailShapeValid_ne_empty hmail
  have hfindnone : (s.structured.find? (fun a =>
      a.username == u.username || a.email == lowerStr u.email)).isSome = false := by
    rw [aux_find?_isSome_eq_any]
    exact hfresh
  have hn : (u.username == "") = false := aux_beq_eq_false hname
  have hm : (u.email == "") = false := aux_beq_eq_false hmailne
  have hsave : mongooseSave s (UserMigration.legacyToNewData u) =
      .ok (mkMUser (UserMigration.legacyToNewData u),
        { s with structured :=
          s.structured ++ [mkMUser (UserMigration.legacyToNewData u)] }) := by
    simp only [mongooseSave, hgood, Bool.not_true, Bool.false_eq_true, if_false]
    have : s.structured.any (fun a =>
        a.username == (UserMigration.legacyToNewData u).username ||
        a.email == lowerStr (UserMigration.legacyToNewData u).email) = false := hfresh
    simp [this]
  simp [UserMigration.migrateUser, hfindnone, hn, hm, hsave]

/-- Over a list of valid, pairwise-distinct entries none of which conflicts
with the store, the migration loop migrates every entry and appends the
converted documents in order. -/
theorem aux_migrateLoop_fresh (l : List LegacyUser) :
    ∀ (s : Store) (acc : UserMigration.Report),
    (∀ u ∈ l, validMUserData (UserMigration.legacyToNewData u) = true) →
    (∀ u ∈ l, s.structured.any (fun a =>
        a.username == u.username || a.email == lowerStr u.email) = false) →
    l.Pairwise (fun u v =>
      u.username ≠ v.username ∧ lowerStr u.email ≠ lowerStr v.email) →
    UserMigration.migrateLoop s l acc =
      ({ acc with migrated := acc.migrated + l.length },
       { s with
         structured :=
           s.structured ++ l.map (fun u => mkMUser (UserMigration.legacyToNewData u)) }) := by
  induction l with
  | nil =>
    intro s acc _ _ _
    simp [UserMigration.migrateLoop]
  | cons u rest ih =>
    intro s acc hgood hfresh hdist
    have hred := aux_migrateUser_fresh s u (hgood u (List.mem_cons_self u rest))
      (hfresh u (List.mem_cons_self u rest))
    obtain ⟨hpair, hdtail⟩ := List.pairwise_cons.mp hdist
    have hfresh1 : ∀ v ∈ rest,
        ({ s with structured := s.structured ++
          [mkMUser (UserMigration.legacyToNewData u)] } : Store).structured.any
          (fun a => a.username == v.username || a.email == lowerStr v.email) = false := by
      intro v hv
      have h1 := hfresh v (List.mem_cons_of_mem u hv)
      have h2 := hpair v hv
      simp only [List.any_append, List.any_cons, List.any_nil, Bool.or_false, h1,
        Bool.false_or]
      simp only [mkMUser, UserMigration.legacyToNewData]
      rw [aux_beq_eq_false h2.1, aux_beq_eq_false h2.2]
      rfl
    simp only [UserMigration.migrateLoop, hred]
    rw [ih _ _ (fun v hv => hgood v (List.mem_cons_of_mem u hv)) hfresh1 hdtail]
    simp only [Prod.mk.injEq, UserMigration.Report.mk.injEq, Store.mk.injEq,
      List.length_cons, List.map_cons, true_and, and_true]
    constructor
    · omega
    · rw [List.append_assoc]
      rfl

/-- When every entry already conflicts with the store, the loop skips each
one and leaves the store unchanged. -/
theorem aux_migrateLoop_existing (l : List LegacyUser) :
    ∀ (s : Store) (acc : UserMigration.Report),
    (∀ u ∈ l, s.structured.any (fun a =>
        a.username == u.username || a.email == lowerStr u.email) = true) →
    UserMigration.migrateLoop s l acc =
      ({ acc with skipped := acc.skipped + l.length }, s) := by
  induction l with
  | nil =>
    intro s acc _
    simp [UserMigration.migrateLoop]
  | cons u rest ih =>
    intro s acc hall
    have hsome : (s.structured.find? (fun a =>
        a.username == u.username || a.email == lowerStr u.email)).isSome = true := by
      rw [aux_find?_isSome_eq_any]
      exact hall u (List.mem_cons_self u rest)
    have hred : UserMigration.migrateUser s u = (.skippedExisting, s) := by
      simp [UserMigration.migrateUser, hsome]
    simp only [UserMigration.migrateLoop, hred]
    rw [ih s { acc with skipped := acc.skipped + 1 }
      (fun v hv => hall v (List.mem_cons_of_mem u hv))]
    simp only [Prod.mk.injEq, UserMigration.Report.mk.injEq, List.length_cons,
      true_and, and_true]
    omega

/-- Claim C8: over a legacy list of N well-formed (schema-valid), pairwise
distinct entries with no pre-existing structured-store conflicts, the first
migration run reports `migrated = N, skipped = 0`, and a second run over
the same (untouched) legacy list reports `migrated = 0, skipped = N`,
every entry now being skipped as already present in the structured
store. -/
theorem claim_C8_migration_idempotent (s : Store) (l : List LegacyUser)
    (hleg : s.legacyUsers = some l)
    (hgood : ∀ u ∈ l, validMUserData (UserMigration.legacyToNewData u) = true)
    (hfresh : ∀ u ∈ l, s.structured.any (fun a =>
        a.username == u.username || a.email == lowerStr u.email) = false)
    (hdist : l.Pairwise (fun u v =>
        u.username ≠ v.username ∧ lowerStr u.email ≠ lowerStr v.email)) :
    (UserMigration.migrateUsersToNewStructure s).1.migrated = l.length ∧
    (UserMigration.migrateUsersToNewStructure s).1.skipped = 0 ∧
    (UserMigration.migrateUsersToNewStructure
      (UserMigration.migrateUsersToNewStructure s).2).1.migrated = 0 ∧
    (UserMigration.migrateUsersToNewStructure
      (UserMigration.migrateUsersToNewStructure s).2).1.skipped = l.length := by
  have h1 := aux_migrateLoop_fresh l s ⟨0, 0, []⟩ hgood hfresh hdist
  set s1 : Store :=
    { s with
      structured :=
        s.structured ++ l.map (fun u => mkMUser (UserMigration.legacyToNewData u)) }
    with hs1
  have hrun1 : UserMigration.migrateUsersToNewStructure s = (⟨l.length, 0, []⟩, s1) := by
    simp only [UserMigration.migrateUsersToNewStructure, hleg, h1]
    norm_num
  have hleg1 : s1.legacyUsers = some l := hleg
  have hex : ∀ u ∈ l, s1.structured.any
      (fun a => a.username == u.username || a.email == lowerStr u.email) = true := by
    intro u hu
    exact aux_any_of_mem (x := mkMUser (UserMigration.legacyToNewData u))
      (List.mem_append_right _ (List.mem_map_of_mem _ hu))
      (by simp [mkMUser, UserMigration.legacyToNewData])
  have h2 := aux_migrateLoop_existing l s1 ⟨0, 0, []⟩ hex
  have hrun2 : UserMigration.migrateUsersToNewStructure s1 = (⟨0, l.length, []⟩, s1) := by
    simp only [UserMigration.migrateUsersToNewStructure, hleg1, h2]
    norm_num
  refine ⟨?_, ?_, ?_, ?_⟩
  · rw [hrun1]
  · rw [hrun1]
  · rw [hrun1]
    show (UserMigration.migrateUsersToNewStructure s1).1.migrated = 0
    rw [hrun2]
  · rw [hrun1]
    show (UserMigration.migrateUsersToNewStructure s1).1.skipped = l.length
    rw [hrun2]

/-- Witness for C8: two fresh legacy accounts migrate on the first run and
are both skipped on the second. -/
theorem claim_C8_witness :
    (UserMigration.migrateUsersToNewStructure storeMig).1.migrated = legacyPair.length ∧
    (UserMigration.migrateUsersToNewStructure storeMig).1.skipped = 0 ∧
    (UserMigration.migrateUsersToNewStructure
      (UserMigration.migrateUsersToNewStructure storeMig).2).1.migrated = 0 ∧
    (UserMigration.migrateUsersToNewStructure
      (UserMigration.migrateUsersToNewStructure storeMig).2).1.skipped = legacyPair.length :=
  claim_C8_migration_idempotent storeMig legacyPair (by decide) (by decide)
    (by decide) (by decide)

/-- Any candidate returned by the suffix retry loop is the base followed by
an underscore and one of the injected suffixes, and was free at call
time. -/
theorem aux_trySuffixes_spec (s : Store) (base : String) (suffixes : Nat → String) :
    ∀ fuel start c,
      UsernameGenerator.trySuffixes s base suffixes fuel start = some c →
      (∃ j, c = base ++ "_" ++ suffixes j) ∧
      UserValidator.isUsernameTaken s c = false := by
  intro fuel
  induction fuel with
  | zero =>
    intro start c h
    simp [UsernameGenerator.trySuffixes] at h
  | succ n ih =>
    intro start c h
    simp only [UsernameGenerator.trySuffixes] at h
    cases htk : UserValidator.isUsernameTaken s (base ++ "_" ++ suffixes start) with
    | false =>
      rw [htk] at h
      simp only [Bool.not_false, if_true] at h
      cases h
      exact ⟨⟨start, rfl⟩, htk⟩
    | true =>
      rw [htk] at h
      simp only [Bool.not_true, Bool.false_eq_true, if_false] at h
      exact ih (start + 1) c h

/-- Counterexample to C5 as stated, in two parts. First: with "johndoe"
taken and a nanoid draw of "XY-Z" (legal nanoid output), the returned
suffix matches neither `[a-z0-9]{4}` nor the 6-digit fallback pattern.
Second: when the ten candidates and the timestamp fallback handle are all
taken, the generator returns a handle that is already taken at call
time. -/
theorem claim_C5_counterexample :
    (UsernameGenerator.generateUniqueUsername storeJohndoeTaken "John_Doe!!"
        (fun _ => "XY-Z") 1234567 = .ok "johndoe_XY-Z" ∧
      UserValidator.isUsernameTaken storeJohndoeTaken "johndoe" = true ∧
      specLowerAlnumSuffix "XY-Z" = false ∧
      UsernameGenerator.trySuffixes storeJohndoeTaken "johndoe"
        (fun _ => "XY-Z") 10 0 = some "johndoe_XY-Z") ∧
    (UsernameGenerator.generateUniqueUsername storeJohndoeAll "John_Doe!!"
        (fun _ => "aaaa") 1234567 = .ok "johndoe_234567" ∧
      UserValidator.isUsernameTaken storeJohndoeAll "johndoe_234567" = true) := by
  decide

/-- Claim C5 (amended): for the desired name "John_Doe!!" the generator
returns "johndoe" when free; when taken, it returns "johndoe_" followed
either by a 4-character suffix over the nanoid url-safe alphabet
`[A-Za-z0-9_-]` that was free at call time, or — when all ten suffix
attempts collide — by the last six digits of the timestamp, appended with
no further existence check (and hence possibly taken). -/
theorem claim_C5_generator (s : Store) (suffixes : Nat → String) (ts : Nat)
    (hsuf : ∀ i, UsernameGenerator.isNanoidSuffix (suffixes i) = true) :
    (UserValidator.isUsernameTaken s "johndoe" = false →
      UsernameGenerator.generateUniqueUsername s "John_Doe!!" suffixes ts =
        .ok "johndoe") ∧
    (UserValidator.isUsernameTaken s "johndoe" = true →
      ∃ rest, UsernameGenerator.generateUniqueUsername s "John_Doe!!" suffixes ts =
          .ok ("johndoe_" ++ rest) ∧
        ((UsernameGenerator.isNanoidSuffix rest = true ∧
          UserValidator.isUsernameTaken s ("johndoe_" ++ rest) = false) ∨
         (UsernameGenerator.trySuffixes s "johndoe" suffixes 10 0 = none ∧
          rest = UsernameGenerator.lastSixDigits ts))) := by
  have hclean : UsernameGenerator.cleanUsername "John_Doe!!" = "johndoe" := by decide
  constructor
  · intro hfree
    simp only [UsernameGenerator.generateUniqueUsername, hclean]
    rw [if_neg (by decide : ¬("johndoe".length < 3))]
    simp [hfree]
  · intro htaken
    simp only [UsernameGenerator.generateUniqueUsername, hclean]
    rw [if_neg (by decide : ¬("johndoe".length < 3))]
    simp only [htaken, Bool.not_true, Bool.false_eq_true, if_false]
    rcases htry : UsernameGenerator.trySuffixes s "johndoe" suffixes 10 0 with _ | c
    · refine ⟨UsernameGenerator.lastSixDigits ts, ?_, Or.inr ⟨rfl, rfl⟩⟩
      simp only [UsernameGenerator.generateWithSuffix, htry]
      rfl
    · obtain ⟨⟨j, hj⟩, hfree⟩ := aux_trySuffixes_spec s "johndoe" suffixes 10 0 c htry
      refine ⟨suffixes j, ?_, Or.inl ⟨hsuf j, ?_⟩⟩
      · simp only [UsernameGenerator.generateWithSuffix, htry, hj]
        rfl
      · have hc : "johndoe_" ++ suffixes j = c := by
          rw [hj]
          rfl
        rw [hc]
        exact hfree

/-- Witness for C5 at a store where "johndoe" is free and a fixed nanoid
draw. -/
theorem claim_C5_witness :
    UsernameGenerator.generateUniqueUsername storeBobLegacy "John_Doe!!"
      (fun _ => "ab12") 1234567 = .ok "johndoe" :=
  (claim_C5_generator storeBobLegacy (fun _ => "ab12") 1234567
    (fun _ => (by decide : UsernameGenerator.isNanoidSuffix "ab12" = true))).1
    (by decide)
